import Mathlib

/-!
Verification of the server trust-state and selection policy of
`src/gui/qt/network_dialog.py` (Electron-Cash-SLP network dialog).

The Python code is shallowly embedded: the GUI widget state that the policy
functions read (checkbox states, line-edit texts, config modifiability) is
a `UIState` record, the network-layer trust state visible through
`network.server_is_blacklisted` / `server_is_whitelisted` /
`is_whitelist_only` is a `NetworkState` record, and calls into the external
network layer are reified as an `Effect` trace so that "how many
set-parameters (reselection) requests does this user action issue" is a
statement about a list.
-/

namespace NetworkDialog

/-- Trust / mode state held by the external network object, as read by the
dialog (`network.blacklisted_servers`, `network.whitelisted_servers`,
`network.is_whitelist_only()`, and the proxy config passed through by
`set_server`). Server keys are canonical serialized strings. -/
structure NetworkState where
  blacklisted_servers : List String
  whitelisted_servers : List String
  whitelist_only : Bool
  proxy : String
deriving DecidableEq, Repr

/-- `network.server_is_blacklisted(server)`: membership in the ban set. -/
def server_is_blacklisted (n : NetworkState) (server : String) : Bool :=
  n.blacklisted_servers.contains server

/-- `network.server_is_whitelisted(server)`: membership in the preferred set. -/
def server_is_whitelisted (n : NetworkState) (server : String) : Bool :=
  n.whitelisted_servers.contains server

/-- `network.is_whitelist_only()`. -/
def is_whitelist_only (n : NetworkState) : Bool :=
  n.whitelist_only

/-- Widget / config state of `NetworkChoiceLayout` read by the policy
functions: `config.is_modifiable('server')`, `autoconnect_cb.isChecked()`,
`preferred_only_cb.isChecked()`, `server_host.text()`, `server_port.text()`,
`ssl_cb.isChecked()`, `tor_cb.isChecked()`. -/
structure UIState where
  server_modifiable : Bool
  autoconnect_checked : Bool
  preferred_only_checked : Bool
  server_host_text : String
  server_port_text : String
  ssl_checked : Bool
  tor_checked : Bool
deriving DecidableEq, Repr

/-- `NetworkChoiceLayout.get_set_server_flags`: returns
`(config.is_modifiable('server'), not autoconnect and not preferred_only)`. -/
def get_set_server_flags (ui : UIState) : Bool × Bool :=
  (ui.server_modifiable,
   !ui.autoconnect_checked && !ui.preferred_only_checked)

/-- `NetworkChoiceLayout.can_set_server(server)` (lines 712-717):
`get_set_server_flags()[0] and not server_is_blacklisted(server) and
(not is_whitelist_only() or server_is_whitelisted(server))`. -/
def can_set_server (ui : UIState) (n : NetworkState) (server : String) : Bool :=
  (get_set_server_flags ui).1
    && !(server_is_blacklisted n server)
    && (!(is_whitelist_only n) || server_is_whitelisted n server)

/-- `ServerFlag.Banned` -/
def ServerFlag.Banned : Nat := 2
/-- `ServerFlag.Preferred` -/
def ServerFlag.Preferred : Nat := 1
/-- `ServerFlag.NoFlag` -/
def ServerFlag.NoFlag : Nat := 0
/-- `ServerFlag.Symbol`, the tuple `("", "★", "⛔")` indexed by flag value. -/
def ServerFlag.Symbol (i : Nat) : String :=
  match i with
  | 1 => "★"
  | 2 => "⛔"
  | _ => ""

/-- The actions offered by `ServerListWidget.create_menu` on a server row,
abstracted from the Qt menu: the "Use as server" action with its enabled
state, the preferred-toggle action with the flag value it would apply, and
the ban-toggle action with the flag value it would apply. -/
inductive MenuAction where
  | useServer (enabled : Bool)
  | setWhitelist (flag : Bool)
  | setBlacklist (flag : Bool)
deriving DecidableEq, Repr

/-- `ServerListWidget.create_menu` (lines 182-211): the "Use as server"
action starts enabled iff `parent.can_set_server(server)`; when the row's
flag value has the `Banned` bit it is force-disabled and only the
"Unban server" action (`set_blacklisted(server, False)`) follows; otherwise
a preferred toggle (`set_whitelisted(server, not iswl)`) and a
"Ban server" action (`set_blacklisted(server, True)`) are offered. -/
def create_menu (ui : UIState) (n : NetworkState) (server : String)
    (flagval : Nat) : List MenuAction :=
  let iswl := flagval &&& ServerFlag.Preferred != 0
  let isbl := flagval &&& ServerFlag.Banned != 0
  let use := MenuAction.useServer (can_set_server ui n server && !isbl)
  if isbl then
    [use, MenuAction.setBlacklist false]
  else
    [use, MenuAction.setWhitelist (!iswl), MenuAction.setBlacklist true]

/-- Whether some "Use as server" action in the menu is enabled. -/
def menu_use_server_enabled (m : List MenuAction) : Bool :=
  m.any fun a =>
    match a with
    | MenuAction.useServer e => e
    | _ => false

/-- `host.lower().endswith('.onion')`, the onion-host test used at
lines 247, 735 and 868: lower-case every character and check the
`.onion` suffix (expressed over the character list so the kernel can
evaluate it). -/
def onionHost (host : String) : Bool :=
  List.isSuffixOf ".onion".data (host.data.map Char.toLower)

/-- Modelled from the spec: `serialize_server` from `electroncash.network`
is not under `src/`; per §6 the canonical address form is
`host:port:protocolLetter` with letter in `{t, s}`. -/
def serialize_server (host port : String) (protocol : Char) : String :=
  host ++ ":" ++ port ++ ":" ++ String.singleton protocol

/-- Calls made by the dialog into the external network layer, reified so
that user actions become effect traces. `setParameters` is the
"apply current settings" request (`network.set_parameters`). -/
inductive Effect where
  | serverSetBlacklisted (server : String) (flag save : Bool)
  | serverSetWhitelisted (server : String) (flag save : Bool)
  | setWhitelistOnly (b : Bool)
  | setParameters (host port : String) (protocol : Char) (proxy : String)
      (auto_connect : Bool)
deriving DecidableEq, Repr

/-- `NetworkChoiceLayout.set_server(onion_hack)` (lines 861-873): reads the
current network parameters (keeping only the proxy), takes host/port from
the line edits and the protocol from the SSL checkbox, and, when
`onion_hack` is set and the host ends in `.onion`, forces TCP and unchecks
the SSL box; finally issues `network.set_parameters`. Returns the updated
widget state and the emitted call. -/
def set_server (ui : UIState) (n : NetworkState) (onion_hack : Bool) :
    UIState × Effect :=
  let host := ui.server_host_text
  let port := ui.server_port_text
  let protocol : Char := if ui.ssl_checked then 's' else 't'
  if onion_hack && onionHost host then
    ({ ui with ssl_checked := false },
     Effect.setParameters host port 't' n.proxy ui.autoconnect_checked)
  else
    (ui, Effect.setParameters host port protocol n.proxy ui.autoconnect_checked)

/-- Modelled from the spec: `network.server_set_blacklisted(server, flag,
save)` is not under `src/`; per §4.1/§6 it mutates the ban set (insert or
remove by canonical string) and `save` controls the flush to durable
config. The persistence flag is recorded in the emitted effect. -/
def server_set_blacklisted (n : NetworkState) (server : String)
    (flag save : Bool) : NetworkState × Effect :=
  ({ n with blacklisted_servers :=
      if flag then
        if n.blacklisted_servers.contains server then n.blacklisted_servers
        else server :: n.blacklisted_servers
      else n.blacklisted_servers.erase server },
   Effect.serverSetBlacklisted server flag save)

/-- Modelled from the spec: `network.server_set_whitelisted(server, flag,
save)` is not under `src/`; mutation of the preferred set, like
`server_set_blacklisted`. -/
def server_set_whitelisted (n : NetworkState) (server : String)
    (flag save : Bool) : NetworkState × Effect :=
  ({ n with whitelisted_servers :=
      if flag then
        if n.whitelisted_servers.contains server then n.whitelisted_servers
        else server :: n.whitelisted_servers
      else n.whitelisted_servers.erase server },
   Effect.serverSetWhitelisted server flag save)

/-- `NetworkChoiceLayout.set_blacklisted(server, bl)` (lines 932-935):
`network.server_set_blacklisted(server, bl, True)`, then `set_server()`
(which unconditionally issues `network.set_parameters`; the source comment
notes this forces a reconnect when the banned server was active), then a
GUI `update()` (no network mutation). The effect trace is returned in
call order. -/
def set_blacklisted (ui : UIState) (n : NetworkState) (server : String)
    (bl : Bool) : UIState × NetworkState × List Effect :=
  let step1 := server_set_blacklisted n server bl true
  let step2 := set_server ui step1.1 false
  (step2.1, step1.1, [step1.2, step2.2])

/-- `NetworkChoiceLayout.set_whitelisted(server, flag)` (lines 937-940):
mutate the preferred set with persistence, then `set_server()`, then
`update()`. -/
def set_whitelisted (ui : UIState) (n : NetworkState) (server : String)
    (flag : Bool) : UIState × NetworkState × List Effect :=
  let step1 := server_set_whitelisted n server flag true
  let step2 := set_server ui step1.1 false
  (step2.1, step1.1, [step1.2, step2.2])

/-- `NetworkChoiceLayout.set_whitelisted_only(b)` (lines 942-945):
`network.set_whitelist_only(b)` (modelled from the spec, §6: sets the
whitelist-only mode flag on the network layer), then `set_server()` —
"forces us to send a set-server to network.py which recomputes eligible
servers" — then `update()`. -/
def set_whitelisted_only (ui : UIState) (n : NetworkState) (b : Bool) :
    UIState × NetworkState × List Effect :=
  let n1 : NetworkState := { n with whitelist_only := b }
  let step2 := set_server ui n1 false
  (step2.1, n1, [Effect.setWhitelistOnly b, step2.2])

/-- Lexicographic code-point comparison of character lists, the order
Python's `sorted` applies to host strings. -/
def charListLt : List Char → List Char → Bool
  | [], [] => false
  | [], _ :: _ => true
  | _ :: _, [] => false
  | c :: cs, d :: ds =>
      c.toNat < d.toNat || (c.toNat == d.toNat && charListLt cs ds)

/-- Host-string order used by `sorted(servers.items())` (line 246); the
catalog keys are distinct so the host alone decides the order. -/
def hostLt (a b : String) : Bool :=
  charListLt a.data b.data

/-- Insertion step of sorting the catalog items by host. -/
def insertByHost (x : String × List (Char × String)) :
    List (String × List (Char × String)) →
      List (String × List (Char × String))
  | [] => [x]
  | y :: ys => if hostLt x.1 y.1 then x :: y :: ys else y :: insertByHost x ys

/-- `sorted(servers.items())`: the catalog items in host order. -/
def sortByHost : List (String × List (Char × String)) →
    List (String × List (Char × String))
  | [] => []
  | x :: xs => insertByHost x (sortByHost xs)

/-- One row of the server list built by `ServerListWidget.update`
(lines 242-264): the flag symbol column, host, port, the serialized server
string stored as item data, the combined flag value, whether
`lightenItemText` was applied (columns 1-2 de-emphasized), and the
tooltip. -/
structure ServerItem where
  flag : String
  host : String
  port : String
  server : String
  flagval : Nat
  dimmed : Bool
  tooltip : String
deriving DecidableEq, Repr

/-- The body of the `ServerListWidget.update` loop for one catalog item:
skip onion hosts when Tor is off; skip hosts with no (non-empty) port for
the wanted protocol; otherwise build the row: banned flag/symbol/tooltip
take precedence over preferred (`flag or flag2`, `tt or tt2`), the flag
values are OR-ed, and the text is lightened when (whitelist-only mode and
the flags are not exactly `Preferred`) or the `Banned` bit is set. -/
def slwUpdateEntry (n : NetworkState) (protocol : Char)
    (use_tor wl_only : Bool) (hostd : String × List (Char × String)) :
    Option ServerItem :=
  if onionHost hostd.1 && !use_tor then none
  else
    match List.lookup protocol hostd.2 with
    | none => none
    | some port =>
        if port.isEmpty then none
        else
          let server := serialize_server hostd.1 port protocol
          let p1 : String × Nat × String :=
            if server_is_blacklisted n server then
              (ServerFlag.Symbol ServerFlag.Banned, ServerFlag.Banned,
               "This server is banned")
            else ("", 0, "")
          let p2 : String × Nat × String :=
            if server_is_whitelisted n server then
              (ServerFlag.Symbol ServerFlag.Preferred, ServerFlag.Preferred,
               "This is a preferred server")
            else ("", 0, "")
          let flagval := p1.2.1 ||| p2.2.1
          some { flag := if p1.1 = "" then p2.1 else p1.1
                 host := hostd.1
                 port := port
                 server := server
                 flagval := flagval
                 dimmed := (wl_only && flagval != ServerFlag.Preferred)
                   || (flagval &&& ServerFlag.Banned != 0)
                 tooltip := if p1.2.2 = "" then p2.2.2 else p1.2.2 }

/-- `ServerListWidget.update(network, servers, protocol, use_tor)`: the
rows of the server list, in sorted host order, with whitelist-only mode
read from the network. -/
def slwUpdate (n : NetworkState)
    (servers : List (String × List (Char × String))) (protocol : Char)
    (use_tor : Bool) : List ServerItem :=
  (sortByHost servers).filterMap
    (slwUpdateEntry n protocol use_tor (is_whitelist_only n))

/-- `protocol_letters = 'ts'`: the valid protocol letters. -/
def protocol_letters : List Char := ['t', 's']

/-- Port resolution of `NetworkChoiceLayout.change_server` (lines 839-853)
over one host catalog entry `pp` (a protocol-to-port mapping in dict
iteration order): an invalid or absent desired protocol is dropped; a
desired protocol whose port is missing is dropped; a surviving protocol is
used with its port; otherwise fall back to `'s'` when the entry offers it,
else to the first protocol of the entry (Python raises on an empty entry,
modelled as `none`). -/
def change_server_resolve (pp : List (Char × String))
    (protocol0 : Option Char) : Option (Char × String) :=
  let protocol1 : Option Char :=
    match protocol0 with
    | some p => if protocol_letters.contains p then some p else none
    | none => none
  let protocol2 : Option Char :=
    match protocol1 with
    | some p => if (List.lookup p pp).isSome then some p else none
    | none => none
  match protocol2 with
  | some p => (List.lookup p pp).map (fun port => (p, port))
  | none =>
      match List.lookup 's' pp with
      | some port => some ('s', port)
      | none =>
          match pp with
          | [] => none
          | (q, _) :: _ => (List.lookup q pp).map (fun port => (q, port))

/-- `NetworkChoiceLayout.change_server(host, protocol)`: fetch the host
catalog entry `pp = servers.get(host, DEFAULT_PORTS)` and resolve the
protocol and port for it. -/
def change_server (servers : List (String × List (Char × String)))
    (default_ports : List (Char × String)) (host : String)
    (protocol : Option Char) : Option (Char × String) :=
  change_server_resolve ((List.lookup host servers).getD default_ports)
    protocol

/-- The loop of `on_clear_blacklist` (lines 983-984):
`for i,s in enumerate(bl): network.server_set_blacklisted(s, False,
save=bool(i+1 == blen))` — unban every listed server, persisting only on
the last iteration. Only the emitted calls are collected (the state
mutation happens inside the external network layer). -/
def clearLoop (bl : List String) (i blen : Nat) : List Effect :=
  match bl with
  | [] => []
  | s :: rest =>
      Effect.serverSetBlacklisted s false (i + 1 == blen)
        :: clearLoop rest (i + 1) blen

/-- `NetworkChoiceLayout.on_clear_blacklist` (lines 979-987): snapshot the
ban list, ask the user to confirm clearing all `blen` servers, and if
confirmed run the unban loop (then a GUI `update()`), returning `True`;
otherwise do nothing and return `False`. -/
def on_clear_blacklist (n : NetworkState) (confirm : Bool) :
    List Effect × Bool :=
  let bl := n.blacklisted_servers
  let blen := bl.length
  if confirm then (clearLoop bl 0 blen, true) else ([], false)

/-- `NetworkChoiceLayout.on_view_blacklist` (lines 947-954): when the
sorted ban list is empty, show "Server ban list is empty!" and return
without building the dialog (no mutation); otherwise the dialog with the
clear button is shown (`none` here). -/
def on_view_blacklist (n : NetworkState) : Option String :=
  if n.blacklisted_servers.isEmpty then some "Server ban list is empty!"
  else none

/-- The `save` (persist) argument carried by a trust-set mutation call. -/
def effectSaveFlag : Effect → Bool
  | Effect.serverSetBlacklisted _ _ save => save
  | Effect.serverSetWhitelisted _ _ save => save
  | _ => false

/-- Is the effect an unban (`server_set_blacklisted(s, False, _)`) call? -/
def isUnbanEffect : Effect → Bool
  | Effect.serverSetBlacklisted _ flag _ => !flag
  | _ => false

/-- Modelled from the spec: the `rate_limited` decorator applied at lines
64 (`NetworkDialog.on_update`, 0.333 s) and 354
(`SlpSearchJobListWidget.update`, 1.0 s) lives in `.util`, which is not
under `src/`. Per §5 it is a trailing-edge rate limiter: a call arriving
at least the minimum interval after the last delivered run is delivered
immediately; a call arriving sooner is coalesced into a single deferred
run scheduled one interval after the last run. The state is the time of
the last delivered run and the scheduled time of the pending deferred
run, if any (times in milliseconds). -/
structure RLState where
  lastRun : Option Nat
  pending : Option Nat
deriving DecidableEq, Repr

/-- The idle rate-limiter state: no run delivered yet, nothing pending. -/
def idleRL : RLState := ⟨none, none⟩

/-- Modelled from the spec: process a chronological list of call times
through the trailing-edge rate limiter, returning the delivery times. A
due pending run fires at its scheduled time before the next call is
considered; a call within the minimum interval of the last run only
(re)schedules the single deferred run. -/
def rlProcess (interval : Nat) (st : RLState) : List Nat → List Nat
  | [] =>
      match st.pending with
      | some s => [s]
      | none => []
  | t :: rest =>
      match st.pending, st.lastRun with
      | some s, _ =>
          if s ≤ t then
            if s + interval ≤ t then
              s :: t :: rlProcess interval ⟨some t, none⟩ rest
            else
              s :: rlProcess interval ⟨some s, some (s + interval)⟩ rest
          else
            rlProcess interval st rest
      | none, none => t :: rlProcess interval ⟨some t, none⟩ rest
      | none, some lr =>
          if lr + interval ≤ t then
            t :: rlProcess interval ⟨some t, none⟩ rest
          else
            rlProcess interval ⟨some lr, some (lr + interval)⟩ rest

/-- `rate_limited(0.333)` on `NetworkDialog.on_update`: the minimum
refresh interval of the network dialog, in milliseconds (at most 3 per
second). -/
def networkDialogRefreshInterval : Nat := 333

/-- `rate_limited(1.0, classlevel=True, ts_after=True)` on
`SlpSearchJobListWidget.update`: the minimum job-list refresh interval in
milliseconds (at most once per second). -/
def jobListRefreshInterval : Nat := 1000

/-- Deliveries spaced at least `interval` apart, starting from `prev`. -/
def spacedFrom (interval prev : Nat) : List Nat → Bool
  | [] => true
  | t :: rest => decide (prev + interval ≤ t) && spacedFrom interval t rest

/-- Consecutive deliveries spaced at least `interval` apart. -/
def spaced (interval : Nat) : List Nat → Bool
  | [] => true
  | t :: rest => spacedFrom interval t rest

/-- Chronologically ordered call times. -/
def chron : List Nat → Bool
  | [] => true
  | [_] => true
  | a :: b :: rest => decide (a ≤ b) && chron (b :: rest)

/-- Is an effect an "apply current settings" (`set_parameters`) request? -/
def isSetParameters : Effect → Bool
  | Effect.setParameters _ _ _ _ _ => true
  | _ => false

/-- Number of `set_parameters` (reselection) requests in a trace. -/
def reselectionRequests (l : List Effect) : Nat :=
  (l.filter isSetParameters).length

/-- The active server as displayed by the dialog: `update()` copies the
network parameters of the current connection into the host/port line edits
and the SSL checkbox, so the widget state names the active server in
canonical form. -/
def activeServer (ui : UIState) : String :=
  serialize_server ui.server_host_text ui.server_port_text
    (if ui.ssl_checked then 's' else 't')

end NetworkDialog

namespace NetworkDialog

/-- C1: a banned (blacklisted) server is never selectable: `can_set_server`
returns `false` and the server-list context menu offers no enabled
"Use as server" action, regardless of the whitelist-only, auto-connect or
other mode flags. -/
theorem can_set_server_banned_refused (ui : UIState) (n : NetworkState)
    (server : String) (flagval : Nat)
    (h : server_is_blacklisted n server = true) :
    can_set_server ui n server = false
      ∧ menu_use_server_enabled (create_menu ui n server flagval) = false := by
  have hc : can_set_server ui n server = false := by
    simp [can_set_server, h]
  refine ⟨hc, ?_⟩
  simp only [create_menu, menu_use_server_enabled, hc]
  split <;> simp [List.any]

/-- Witness for C1 at a concrete banned server. -/
theorem can_set_server_banned_refused_witness :
    server_is_blacklisted
        ⟨["bad.example:50002:s"], [], false, "proxy"⟩ "bad.example:50002:s" = true
      ∧ can_set_server ⟨true, false, false, "h", "p", true, false⟩
          ⟨["bad.example:50002:s"], [], false, "proxy"⟩ "bad.example:50002:s" = false
      ∧ menu_use_server_enabled
          (create_menu ⟨true, false, false, "h", "p", true, false⟩
            ⟨["bad.example:50002:s"], [], false, "proxy"⟩ "bad.example:50002:s" 2) = false := by
  refine ⟨by decide, ?_⟩
  have h := can_set_server_banned_refused
    ⟨true, false, false, "h", "p", true, false⟩
    ⟨["bad.example:50002:s"], [], false, "proxy"⟩
    "bad.example:50002:s" 2 (by decide)
  exact h

/-- C2: when whitelist-only mode is on and the server setting is modifiable,
`can_set_server` holds exactly for servers that are whitelisted (preferred)
and not blacklisted (banned). -/
theorem can_set_server_whitelist_only_iff (ui : UIState) (n : NetworkState)
    (server : String)
    (hmod : ui.server_modifiable = true)
    (hwl : is_whitelist_only n = true) :
    can_set_server ui n server
      = (server_is_whitelisted n server && !(server_is_blacklisted n server)) := by
  simp only [can_set_server, get_set_server_flags, hmod, hwl]
  cases server_is_blacklisted n server
    <;> cases server_is_whitelisted n server <;> rfl

/-- Witness for C2 at concrete states: a whitelisted, unbanned server is
selectable under whitelist-only mode, per the equivalence. -/
theorem can_set_server_whitelist_only_iff_witness :
    (⟨true, false, true, "h", "p", true, false⟩ : UIState).server_modifiable = true
      ∧ is_whitelist_only ⟨[], ["good.example:50002:s"], true, "proxy"⟩ = true
      ∧ can_set_server ⟨true, false, true, "h", "p", true, false⟩
            ⟨[], ["good.example:50002:s"], true, "proxy"⟩ "good.example:50002:s"
          = (server_is_whitelisted ⟨[], ["good.example:50002:s"], true, "proxy"⟩
                "good.example:50002:s"
             && !(server_is_blacklisted ⟨[], ["good.example:50002:s"], true, "proxy"⟩
                "good.example:50002:s")) := by
  refine ⟨by decide, by decide, ?_⟩
  exact can_set_server_whitelist_only_iff
    ⟨true, false, true, "h", "p", true, false⟩
    ⟨[], ["good.example:50002:s"], true, "proxy"⟩
    "good.example:50002:s" (by decide) (by decide)

/-- The call `set_server` emits is always a `set_parameters` request. -/
lemma isSetParameters_set_server (ui : UIState) (n : NetworkState)
    (oh : Bool) : isSetParameters (set_server ui n oh).2 = true := by
  by_cases h : (oh && onionHost ui.server_host_text) = true
  · simp [set_server, h, isSetParameters]
  · simp only [set_server, Bool.not_eq_true] at h ⊢
    simp [h, isSetParameters]

/-- A two-call trace whose first call is not `set_parameters` and whose
second is contains exactly one reselection request. -/
lemma reselectionRequests_pair (e f : Effect)
    (he : isSetParameters e = false) (hf : isSetParameters f = true) :
    reselectionRequests [e, f] = 1 := by
  simp [reselectionRequests, List.filter_cons, he, hf]

/-- C10: applying the server settings with `onion_hack` forces protocol
TCP and unchecks the SSL box whenever the host ends in `.onion`
(case-insensitively), regardless of the SSL checkbox; for a non-onion host
the checkbox-chosen protocol is passed through and the widget state is
unchanged. -/
theorem set_server_onion_hack (ui : UIState) (n : NetworkState) :
    (onionHost ui.server_host_text = true →
      set_server ui n true
        = ({ ui with ssl_checked := false },
           Effect.setParameters ui.server_host_text ui.server_port_text 't'
             n.proxy ui.autoconnect_checked))
    ∧ (onionHost ui.server_host_text = false →
      set_server ui n true
        = (ui,
           Effect.setParameters ui.server_host_text ui.server_port_text
             (if ui.ssl_checked then 's' else 't')
             n.proxy ui.autoconnect_checked)) := by
  constructor <;> intro h <;> simp [set_server, h]

/-- Witness for C10: a mixed-case `.Onion` host with SSL checked is forced
to TCP; a plain host keeps its SSL choice. -/
theorem set_server_onion_hack_witness :
    (onionHost "pay.ONioN" = true
      ∧ set_server ⟨true, false, false, "pay.ONioN", "50001", true, false⟩
          ⟨[], [], false, "proxy"⟩ true
        = (⟨true, false, false, "pay.ONioN", "50001", false, false⟩,
           Effect.setParameters "pay.ONioN" "50001" 't' "proxy" false))
    ∧ (onionHost "a.example" = false
      ∧ set_server ⟨true, false, false, "a.example", "50002", true, false⟩
          ⟨[], [], false, "proxy"⟩ true
        = (⟨true, false, false, "a.example", "50002", true, false⟩,
           Effect.setParameters "a.example" "50002" 's' "proxy" false)) := by
  constructor
  · refine ⟨by decide, ?_⟩
    have h := (set_server_onion_hack
      ⟨true, false, false, "pay.ONioN", "50001", true, false⟩
      ⟨[], [], false, "proxy"⟩).1 (by decide)
    exact h
  · refine ⟨by decide, ?_⟩
    have h := (set_server_onion_hack
      ⟨true, false, false, "a.example", "50002", true, false⟩
      ⟨[], [], false, "proxy"⟩).2 (by decide)
    simpa using h

/-- C4 counterexample: banning a server that is not the active one still
issues a `set_parameters` (reselection) request — the claim that it
"triggers no reselection request" fails. Active server is
`a.example:50002:s`; the banned server is `b.example:50001:t`. -/
theorem ban_other_server_counterexample :
    activeServer ⟨true, false, false, "a.example", "50002", true, false⟩
        ≠ "b.example:50001:t"
      ∧ reselectionRequests
          (set_blacklisted ⟨true, false, false, "a.example", "50002", true, false⟩
            ⟨[], [], false, "proxy"⟩ "b.example:50001:t" true).2.2 ≠ 0 := by
  constructor
  · decide
  · decide

/-- C4 amended: banning any server — active or not — performs the ban
mutation and then exactly one `set_parameters` (apply-current-settings)
request, both within the same user action, the mutation first; the code
issues the request unconditionally and leaves "does this force an actual
reconnect" to the network layer. -/
theorem set_blacklisted_effects (ui : UIState) (n : NetworkState)
    (server : String) (bl : Bool) :
    (set_blacklisted ui n server bl).2.2
        = [Effect.serverSetBlacklisted server bl true,
           (set_server ui (server_set_blacklisted n server bl true).1 false).2]
      ∧ reselectionRequests (set_blacklisted ui n server bl).2.2 = 1
      ∧ isSetParameters
          (set_server ui (server_set_blacklisted n server bl true).1 false).2
        = true := by
  refine ⟨rfl, ?_, isSetParameters_set_server _ _ _⟩
  exact reselectionRequests_pair _ _ rfl (isSetParameters_set_server _ _ _)

/-- C5: toggling whitelist-only mode emits the mode change immediately
followed — within the same action — by exactly one `set_parameters`
(apply-current-settings) request; in particular toggling false-to-true
while the active server is not preferred triggers exactly one reselection
request. -/
theorem set_whitelisted_only_reselects (ui : UIState) (n : NetworkState)
    (b : Bool) (htoggle : n.whitelist_only = false) (hb : b = true)
    (hnotpref : server_is_whitelisted n (activeServer ui) = false) :
    (set_whitelisted_only ui n b).2.2
        = [Effect.setWhitelistOnly b,
           (set_server ui { n with whitelist_only := b } false).2]
      ∧ reselectionRequests (set_whitelisted_only ui n b).2.2 = 1 := by
  refine ⟨rfl, ?_⟩
  exact reselectionRequests_pair _ _ rfl (isSetParameters_set_server _ _ _)

/-- Witness for C5: enabling whitelist-only while the active server
`a.example:50002:s` is not preferred. -/
theorem set_whitelisted_only_reselects_witness :
    (⟨[], ["other.example:50001:t"], false, "proxy"⟩ : NetworkState).whitelist_only
        = false
      ∧ server_is_whitelisted ⟨[], ["other.example:50001:t"], false, "proxy"⟩
          (activeServer ⟨true, false, false, "a.example", "50002", true, false⟩)
        = false
      ∧ reselectionRequests
          (set_whitelisted_only ⟨true, false, false, "a.example", "50002", true, false⟩
            ⟨[], ["other.example:50001:t"], false, "proxy"⟩ true).2.2 = 1 := by
  refine ⟨by decide, by decide, ?_⟩
  exact (set_whitelisted_only_reselects
    ⟨true, false, false, "a.example", "50002", true, false⟩
    ⟨[], ["other.example:50001:t"], false, "proxy"⟩
    true (by decide) (by decide) (by decide)).2

/-- The unban loop issues one call per listed server. -/
lemma clearLoop_length (bl : List String) :
    ∀ i blen, (clearLoop bl i blen).length = bl.length := by
  induction bl with
  | nil => intro i blen; rfl
  | cons s rest ih =>
      intro i blen
      simp [clearLoop, ih]

/-- Every call of the unban loop is an unban mutation. -/
lemma clearLoop_unban (bl : List String) :
    ∀ i blen e, e ∈ clearLoop bl i blen → isUnbanEffect e = true := by
  induction bl with
  | nil => intro i blen e h; cases h
  | cons s rest ih =>
      intro i blen e h
      rcases List.mem_cons.mp h with h2 | h2
      · subst h2; rfl
      · exact ih (i + 1) blen e h2

/-- The persist flags of the unban loop: all `false` except the last call,
when the loop counter is started so that it reaches `blen` on the final
iteration. -/
lemma clearLoop_saves (bl : List String) :
    ∀ i blen, i + bl.length = blen → bl ≠ [] →
      (clearLoop bl i blen).map effectSaveFlag
        = List.replicate (bl.length - 1) false ++ [true] := by
  induction bl with
  | nil => intro i blen _ hne; exact absurd rfl hne
  | cons s rest ih =>
      intro i blen h _
      cases rest with
      | nil =>
          have hb : i + 1 = blen := by simpa using h
          simp [clearLoop, effectSaveFlag, hb]
      | cons s2 rest2 =>
          have hb : (i + 1) + (s2 :: rest2).length = blen := by
            simp only [List.length_cons] at h ⊢
            omega
          have hne2 : i + 1 ≠ blen := by
            simp only [List.length_cons] at h
            omega
          have hbeq : (i + 1 == blen) = false := by
            simpa using hne2
          have ihr := ih (i + 1) blen hb (by simp)
          show (i + 1 == blen)
              :: List.map effectSaveFlag (clearLoop (s2 :: rest2) (i + 1) blen)
            = List.replicate ((s :: s2 :: rest2).length - 1) false ++ [true]
          rw [hbeq, ihr]
          show false
              :: (List.replicate ((s2 :: rest2).length - 1) false ++ [true])
            = List.replicate ((s :: s2 :: rest2).length - 1) false ++ [true]
          simp [List.replicate_succ, List.length_cons]

/-- C6: clearing a non-empty ban list of K servers performs exactly K
mutations, all of them unbans, with persist `true` on the last call only
(exactly one persisted write); viewing the ban list when it is empty
reports "Server ban list is empty!" and performs no mutation. -/
theorem on_clear_blacklist_spec (n : NetworkState)
    (hK : n.blacklisted_servers ≠ []) :
    ((on_clear_blacklist n true).1.length = n.blacklisted_servers.length
      ∧ (∀ e ∈ (on_clear_blacklist n true).1, isUnbanEffect e = true)
      ∧ (on_clear_blacklist n true).1.map effectSaveFlag
          = List.replicate (n.blacklisted_servers.length - 1) false ++ [true]
      ∧ ((on_clear_blacklist n true).1.filter effectSaveFlag).length = 1)
    ∧ (∀ m : NetworkState, m.blacklisted_servers = [] →
        on_view_blacklist m = some "Server ban list is empty!"
          ∧ (on_clear_blacklist m true).1 = []) := by
  have hsaves := clearLoop_saves n.blacklisted_servers 0
    n.blacklisted_servers.length (by simp) hK
  constructor
  · refine ⟨clearLoop_length _ _ _, ?_, ?_, ?_⟩
    · intro e he
      exact clearLoop_unban _ _ _ e he
    · simpa [on_clear_blacklist] using hsaves
    · have hfil : ∀ l : List Effect,
          (l.filter effectSaveFlag).length
            = (l.map effectSaveFlag).count true := by
        intro l
        induction l with
        | nil => rfl
        | cons a t iht =>
            cases ha : effectSaveFlag a
              <;> simp [List.filter_cons, List.count_cons, ha, iht]
      rw [hfil]
      have : ((on_clear_blacklist n true).1.map effectSaveFlag)
          = List.replicate (n.blacklisted_servers.length - 1) false ++ [true] := by
        simpa [on_clear_blacklist] using hsaves
      rw [this]
      rw [List.count_append]
      rw [List.count_eq_zero.mpr (by simp [List.mem_replicate])]
      simp
  · intro m hm
    constructor
    · simp [on_view_blacklist, hm]
    · simp [on_clear_blacklist, hm, clearLoop]

/-- Witness for C6 at a concrete three-element ban list and at an empty
one. -/
theorem on_clear_blacklist_spec_witness :
    (⟨["x:1:t", "y:2:s", "z:3:t"], [], false, "proxy"⟩ : NetworkState).blacklisted_servers
        ≠ []
      ∧ (on_clear_blacklist ⟨["x:1:t", "y:2:s", "z:3:t"], [], false, "proxy"⟩ true).1.map
          effectSaveFlag = [false, false, true]
      ∧ on_view_blacklist ⟨[], [], false, "proxy"⟩
        = some "Server ban list is empty!" := by
  have h := on_clear_blacklist_spec
    ⟨["x:1:t", "y:2:s", "z:3:t"], [], false, "proxy"⟩ (by decide)
  refine ⟨by decide, ?_, ?_⟩
  · have h2 := h.1.2.2.1
    simpa using h2
  · exact (h.2 ⟨[], [], false, "proxy"⟩ (by decide)).1

/-- C7: for a host's catalog entry, port resolution returns the desired
protocol's port when offered; otherwise it falls back to the SSL entry
when the host offers SSL; otherwise to the first protocol in the entry's
iteration order. -/
theorem change_server_port_resolution
    (servers : List (String × List (Char × String)))
    (default_ports pp : List (Char × String)) (host : String) (p : Char)
    (hpp : (List.lookup host servers).getD default_ports = pp)
    (hp : protocol_letters.contains p = true) :
    (∀ port, List.lookup p pp = some port →
        change_server servers default_ports host (some p) = some (p, port))
      ∧ (List.lookup p pp = none →
          ∀ port, List.lookup 's' pp = some port →
            change_server servers default_ports host (some p)
              = some ('s', port))
      ∧ (List.lookup p pp = none → List.lookup 's' pp = none →
          ∀ q v rest, pp = (q, v) :: rest →
            change_server servers default_ports host (some p)
              = some (q, v)) := by
  have hp2 : p ∈ protocol_letters := by simpa using hp
  refine ⟨?_, ?_, ?_⟩
  · intro port hport
    unfold change_server
    rw [hpp]
    simp [change_server_resolve, hp2, hport]
  · intro hnone port hs
    unfold change_server
    rw [hpp]
    simp [change_server_resolve, hp2, hnone, hs]
  · intro hnone hs q v rest hshape
    unfold change_server
    rw [hpp, hshape]
    rw [hshape] at hnone hs
    have hl : List.lookup q ((q, v) :: rest) = some v := by
      simp [List.lookup]
    simp [change_server_resolve, hp2, hnone, hs, hl]

/-- Witness for C7, exercising all three resolution branches on concrete
catalogs: desired port present; desired absent with SSL fallback; desired
and SSL absent with first-entry fallback. -/
theorem change_server_port_resolution_witness :
    change_server [("a.example", [('t', "50001"), ('s', "50002")])] []
        "a.example" (some 's') = some ('s', "50002")
      ∧ change_server [("d.example", [('s', "50010")])] []
          "d.example" (some 't') = some ('s', "50010")
      ∧ change_server [("c.example", [('t', "50005")])] []
          "c.example" (some 's') = some ('t', "50005") := by
  refine ⟨?_, ?_, ?_⟩
  · exact (change_server_port_resolution
      [("a.example", [('t', "50001"), ('s', "50002")])] []
      [('t', "50001"), ('s', "50002")] "a.example" 's'
      (by decide) (by decide)).1 "50002" (by decide)
  · exact (change_server_port_resolution
      [("d.example", [('s', "50010")])] []
      [('s', "50010")] "d.example" 't'
      (by decide) (by decide)).2.1 (by decide) "50010" (by decide)
  · exact (change_server_port_resolution
      [("c.example", [('t', "50005")])] []
      [('t', "50005")] "c.example" 's'
      (by decide) (by decide)).2.2 (by decide) (by decide)
      't' "50005" [] (by decide)

/-- Inversion of the row builder: a produced row carries the item's host,
and its de-emphasis is exactly (whitelist-only and not exactly preferred)
or banned, in terms of the trust sets; with Tor off a produced row's host
is never an onion host. -/
lemma slwUpdateEntry_some (n : NetworkState) (protocol : Char)
    (ut wl : Bool) (hostd : String × List (Char × String)) (e : ServerItem)
    (h : slwUpdateEntry n protocol ut wl hostd = some e) :
    e.host = hostd.1
      ∧ e.dimmed
          = ((wl && !(server_is_whitelisted n e.server
                && !(server_is_blacklisted n e.server)))
              || server_is_blacklisted n e.server)
      ∧ (ut = false → onionHost e.host = false) := by
  unfold slwUpdateEntry at h
  by_cases h1 : (onionHost hostd.1 && !ut) = true
  · rw [if_pos h1] at h
    cases h
  · rw [if_neg h1] at h
    cases hl : List.lookup protocol hostd.2 with
    | none => rw [hl] at h; cases h
    | some port =>
        simp only [hl] at h
        by_cases hpe : port.isEmpty = true
        · rw [if_pos hpe] at h
          cases h
        · rw [if_neg hpe] at h
          cases hb : server_is_blacklisted n
              (serialize_server hostd.1 port protocol)
            <;> cases hw : server_is_whitelisted n
                (serialize_server hostd.1 port protocol)
            <;> rw [hb, hw] at h
            <;> obtain rfl := Option.some.inj h
            <;> refine ⟨rfl, ?_, ?_⟩
            <;> simp only [hb, hw]
            <;> try (cases wl <;> decide)
          all_goals
            intro hut
            subst hut
            simpa using h1

/-- The Tor flag only gates the onion-host skip: with Tor off, a row is
built exactly as with Tor on unless the host is an onion host. -/
lemma slwUpdateEntry_tor (n : NetworkState) (protocol : Char) (wl : Bool)
    (hostd : String × List (Char × String)) :
    slwUpdateEntry n protocol false wl hostd
      = if onionHost hostd.1 then none
        else slwUpdateEntry n protocol true wl hostd := by
  unfold slwUpdateEntry
  by_cases ho : onionHost hostd.1 = true <;> simp [ho]

/-- Turning Tor off filters exactly the onion-host rows out of the server
list; every remaining row is identical, styling included. -/
lemma slwUpdate_tor_filter (n : NetworkState)
    (servers : List (String × List (Char × String))) (protocol : Char) :
    slwUpdate n servers protocol false
      = (slwUpdate n servers protocol true).filter
          (fun e => !onionHost e.host) := by
  unfold slwUpdate
  generalize sortByHost servers = l
  induction l with
  | nil => rfl
  | cons hd tl ihl =>
      simp only [List.filterMap_cons]
      rw [slwUpdateEntry_tor]
      by_cases ho : onionHost hd.1 = true
      · rw [if_pos ho]
        cases he : slwUpdateEntry n protocol true (is_whitelist_only n) hd with
        | none => simpa using ihl
        | some e =>
            have hh : e.host = hd.1 :=
              (slwUpdateEntry_some n protocol true (is_whitelist_only n)
                hd e he).1
            simp [List.filter_cons, hh, ho, ihl]
      · rw [if_neg ho]
        cases he : slwUpdateEntry n protocol true (is_whitelist_only n) hd with
        | none => simpa using ihl
        | some e =>
            have hh : e.host = hd.1 :=
              (slwUpdateEntry_some n protocol true (is_whitelist_only n)
                hd e he).1
            simp [List.filter_cons, hh, ho, ihl]

/-- C8: a server row is de-emphasized exactly when whitelist-only mode is
on and the row's trust flags are not exactly `Preferred`, or when the
server is banned; and the Tor flag affects only which rows are listed
(turning it off filters out exactly the onion-host rows), never their
styling. -/
theorem slw_update_display_policy (n : NetworkState)
    (servers : List (String × List (Char × String))) (protocol : Char)
    (use_tor : Bool) :
    (∀ e ∈ slwUpdate n servers protocol use_tor,
        e.dimmed
          = ((is_whitelist_only n
                && !(server_is_whitelisted n e.server
                  && !(server_is_blacklisted n e.server)))
              || server_is_blacklisted n e.server))
      ∧ slwUpdate n servers protocol false
          = (slwUpdate n servers protocol true).filter
              (fun e => !onionHost e.host) := by
  constructor
  · intro e he
    obtain ⟨a, _, hsome⟩ := List.mem_filterMap.mp he
    exact (slwUpdateEntry_some n protocol use_tor (is_whitelist_only n)
      a e hsome).2.1
  · exact slwUpdate_tor_filter n servers protocol

/-- Witness for C8 on the spec scenario catalog
`{"a.example": {t: 50001, s: 50002}, "b.onion": {t: 50001}}` with
whitelist-only on and `a.example:50001:t` banned: the banned row and the
non-preferred onion row are de-emphasized per the policy, and with Tor off
the listing drops exactly `b.onion`. -/
theorem slw_update_display_policy_witness :
    (⟨"⛔", "a.example", "50001", "a.example:50001:t", 2, true,
        "This server is banned"⟩ : ServerItem)
        ∈ slwUpdate ⟨["a.example:50001:t"], [], true, "proxy"⟩
            [("a.example", [('t', "50001"), ('s', "50002")]),
             ("b.onion", [('t', "50001")])] 't' true
      ∧ (⟨"⛔", "a.example", "50001", "a.example:50001:t", 2, true,
            "This server is banned"⟩ : ServerItem).dimmed
          = ((is_whitelist_only ⟨["a.example:50001:t"], [], true, "proxy"⟩
                && !(server_is_whitelisted
                      ⟨["a.example:50001:t"], [], true, "proxy"⟩
                      "a.example:50001:t"
                  && !(server_is_blacklisted
                        ⟨["a.example:50001:t"], [], true, "proxy"⟩
                        "a.example:50001:t")))
              || server_is_blacklisted
                  ⟨["a.example:50001:t"], [], true, "proxy"⟩
                  "a.example:50001:t")
      ∧ slwUpdate ⟨["a.example:50001:t"], [], true, "proxy"⟩
            [("a.example", [('t', "50001"), ('s', "50002")]),
             ("b.onion", [('t', "50001")])] 't' false
          = (slwUpdate ⟨["a.example:50001:t"], [], true, "proxy"⟩
              [("a.example", [('t', "50001"), ('s', "50002")]),
               ("b.onion", [('t', "50001")])] 't' true).filter
              (fun e => !onionHost e.host) := by
  have hmem : (⟨"⛔", "a.example", "50001", "a.example:50001:t", 2, true,
      "This server is banned"⟩ : ServerItem)
      ∈ slwUpdate ⟨["a.example:50001:t"], [], true, "proxy"⟩
          [("a.example", [('t', "50001"), ('s', "50002")]),
           ("b.onion", [('t', "50001")])] 't' true := by decide
  have h := slw_update_display_policy
    ⟨["a.example:50001:t"], [], true, "proxy"⟩
    [("a.example", [('t', "50001"), ('s', "50002")]),
     ("b.onion", [('t', "50001")])] 't' true
  exact ⟨hmem, h.1 _ hmem, h.2⟩

/-- C3 counterexample: `can_set_server` does not refuse onion hosts when
Tor is off. For the unbanned onion server `xyz.onion:50001:t`, with the
Tor checkbox unchecked, `can_set_server` still returns `true` — the
claimed "eligibility check refuses selecting S" fails at this input. -/
theorem onion_selectable_counterexample :
    onionHost "xyz.onion" = true
      ∧ (⟨true, false, false, "xyz.onion", "50001", false, false⟩ :
            UIState).tor_checked = false
      ∧ can_set_server ⟨true, false, false, "xyz.onion", "50001", false, false⟩
          ⟨[], [], false, "proxy"⟩ "xyz.onion:50001:t" = true := by
  refine ⟨by decide, by decide, by decide⟩

/-- C3 amended: onion gating with Tor off happens only at listing time —
the server list omits every onion-host row (so no selection menu is
offered for them) — while `can_set_server` itself never consults the Tor
flag, and the ban/unban action is present in the context menu for every
row regardless of eligibility. -/
theorem onion_gating_amended (ui : UIState) (n : NetworkState)
    (servers : List (String × List (Char × String))) (protocol : Char)
    (server : String) (flagval : Nat) (tor : Bool) :
    (∀ e ∈ slwUpdate n servers protocol false, onionHost e.host = false)
      ∧ can_set_server { ui with tor_checked := tor } n server
          = can_set_server ui n server
      ∧ MenuAction.setBlacklist (!(flagval &&& ServerFlag.Banned != 0))
          ∈ create_menu ui n server flagval := by
  refine ⟨?_, rfl, ?_⟩
  · intro e he
    rw [slwUpdate_tor_filter] at he
    have hf := List.mem_filter.mp he
    simpa using hf.2
  · unfold create_menu
    by_cases hb : (flagval &&& ServerFlag.Banned != 0) = true
    · simp [hb]
    · simp [hb]

/-- Witness for C3 amended, on the scenario catalog with Tor off: the
listed row is `a.example` (not an onion host), changing only the Tor
checkbox does not change `can_set_server`, and the ban action is offered
for an unbanned row. -/
theorem onion_gating_amended_witness :
    (⟨"", "a.example", "50001", "a.example:50001:t", 0, false, ""⟩ :
          ServerItem)
        ∈ slwUpdate ⟨[], [], false, "proxy"⟩
            [("a.example", [('t', "50001"), ('s', "50002")]),
             ("b.onion", [('t', "50001")])] 't' false
      ∧ onionHost "a.example" = false
      ∧ can_set_server ⟨true, false, false, "xyz.onion", "50001", false, true⟩
            ⟨[], [], false, "proxy"⟩ "xyz.onion:50001:t"
          = can_set_server ⟨true, false, false, "xyz.onion", "50001", false, false⟩
            ⟨[], [], false, "proxy"⟩ "xyz.onion:50001:t"
      ∧ MenuAction.setBlacklist true
          ∈ create_menu ⟨true, false, false, "xyz.onion", "50001", false, false⟩
              ⟨[], [], false, "proxy"⟩ "xyz.onion:50001:t" 0 := by
  have hmem : (⟨"", "a.example", "50001", "a.example:50001:t", 0, false, ""⟩ :
        ServerItem)
      ∈ slwUpdate ⟨[], [], false, "proxy"⟩
          [("a.example", [('t', "50001"), ('s', "50002")]),
           ("b.onion", [('t', "50001")])] 't' false := by decide
  have h := onion_gating_amended
    ⟨true, false, false, "xyz.onion", "50001", false, false⟩
    ⟨[], [], false, "proxy"⟩
    [("a.example", [('t', "50001"), ('s', "50002")]),
     ("b.onion", [('t', "50001")])] 't' "xyz.onion:50001:t" 0 true
  refine ⟨hmem, ?_, ?_, ?_⟩
  · have := h.1 _ hmem
    simpa using this
  · exact h.2.1
  · simpa using h.2.2

/-- While a deferred run is scheduled at time `s`, calls strictly before
`s` are coalesced: only the deferred run is delivered. -/
lemma rlProcess_pending_burst (interval : Nat) :
    ∀ (l : List Nat) (lr s : Nat), (∀ v ∈ l, v < s) →
      rlProcess interval ⟨some lr, some s⟩ l = [s] := by
  intro l
  induction l with
  | nil => intro lr s _; rfl
  | cons t rest ih =>
      intro lr s hall
      have ht : t < s := hall t (List.mem_cons_self t rest)
      simp only [rlProcess]
      rw [if_neg (by omega : ¬(s ≤ t))]
      exact ih lr s fun v hv => hall v (List.mem_cons_of_mem t hv)

/-- A burst after a delivery at `t0`, entirely within the minimum
interval, yields exactly the one deferred delivery at `t0 + interval`. -/
lemma rlProcess_burst_tail (interval t : Nat) (rest : List Nat) (t0 : Nat)
    (hall : ∀ v ∈ t :: rest, t0 ≤ v ∧ v < t0 + interval) :
    rlProcess interval ⟨some t0, none⟩ (t :: rest) = [t0 + interval] := by
  have ht := hall t (List.mem_cons_self t rest)
  simp only [rlProcess]
  rw [if_neg (by omega : ¬(t0 + interval ≤ t))]
  exact rlProcess_pending_burst interval rest t0 (t0 + interval)
    fun v hv => (hall v (List.mem_cons_of_mem t hv)).2

/-- A chronological list stays chronological after its head, and the head
is a lower bound of the tail. -/
lemma chron_cons : ∀ (rest : List Nat) (t : Nat), chron (t :: rest) = true →
    chron rest = true ∧ ∀ v ∈ rest, t ≤ v := by
  intro rest
  induction rest with
  | nil => intro t _; exact ⟨rfl, by simp⟩
  | cons b r2 ih =>
      intro t h
      have h1 : t ≤ b ∧ chron (b :: r2) = true := by
        simpa [chron] using h
      obtain ⟨htb, hbr⟩ := h1
      obtain ⟨_, h3⟩ := ih b hbr
      refine ⟨hbr, ?_⟩
      intro v hv
      rcases List.mem_cons.mp hv with h4 | h4
      · subst h4; exact htb
      · exact le_trans htb (h3 v h4)

/-- Invariant run of the rate limiter: from a state that last delivered at
`lr` (with or without the deferred run scheduled at `lr + interval`),
chronological calls no earlier than `lr` produce deliveries spaced at
least one interval apart, starting at least one interval after `lr`. -/
lemma rl_spaced_aux (interval : Nat) :
    ∀ (es : List Nat), chron es = true →
      ∀ lr, (∀ v ∈ es, lr ≤ v) →
        spacedFrom interval lr
            (rlProcess interval ⟨some lr, some (lr + interval)⟩ es) = true
          ∧ spacedFrom interval lr
              (rlProcess interval ⟨some lr, none⟩ es) = true := by
  intro es
  induction es with
  | nil =>
      intro _ lr _
      constructor
      · simp [rlProcess, spacedFrom]
      · simp [rlProcess, spacedFrom]
  | cons t rest ih =>
      intro hchron lr hall
      obtain ⟨hcr, hrge⟩ := chron_cons rest t hchron
      have hlrt : lr ≤ t := hall t (List.mem_cons_self t rest)
      have hallrest : ∀ v ∈ rest, lr ≤ v :=
        fun v hv => hall v (List.mem_cons_of_mem t hv)
      constructor
      · by_cases h1 : lr + interval ≤ t
        · by_cases h2 : (lr + interval) + interval ≤ t
          · simp only [rlProcess]
            rw [if_pos h1, if_pos h2]
            have hsp := (ih hcr t hrge).2
            simp [spacedFrom, h2, hsp]
          · simp only [rlProcess]
            rw [if_pos h1, if_neg h2]
            have hge2 : ∀ v ∈ rest, lr + interval ≤ v :=
              fun v hv => le_trans h1 (hrge v hv)
            have hsp := (ih hcr (lr + interval) hge2).1
            simp [spacedFrom, hsp]
        · simp only [rlProcess]
          rw [if_neg h1]
          exact (ih hcr lr hallrest).1
      · by_cases h1 : lr + interval ≤ t
        · simp only [rlProcess]
          rw [if_pos h1]
          have hsp := (ih hcr t hrge).2
          simp [spacedFrom, h1, hsp]
        · simp only [rlProcess]
          rw [if_neg h1]
          exact (ih hcr lr hallrest).1

/-- C9: the trailing-edge rate limiter delivers refreshes spaced at least
one minimum interval apart (for the network dialog, 333 ms, so at most 3
per second; for the job list, 1000 ms, so at most once per second), and a
burst — every call after the first arriving within one interval of it —
yields exactly one immediate delivery plus one deferred delivery one
interval later, never one delivery per call. -/
theorem rate_limited_coalescing (interval : Nat) (es : List Nat)
    (t0 : Nat) (rest : List Nat) :
    (chron es = true → spaced interval (rlProcess interval idleRL es) = true)
      ∧ (rest ≠ [] → (∀ v ∈ rest, t0 ≤ v ∧ v < t0 + interval) →
          rlProcess interval idleRL (t0 :: rest) = [t0, t0 + interval]) := by
  constructor
  · intro hchron
    cases es with
    | nil => rfl
    | cons t rest2 =>
        obtain ⟨hcr, hrge⟩ := chron_cons rest2 t hchron
        simp only [rlProcess, idleRL, spaced]
        exact (rl_spaced_aux interval rest2 hcr t hrge).2
  · intro hne hall
    cases rest with
    | nil => exact absurd rfl hne
    | cons u rest2 =>
        have hu := hall u (List.mem_cons_self u rest2)
        simp only [rlProcess, idleRL]
        rw [if_neg (by omega : ¬(t0 + interval ≤ u))]
        rw [rlProcess_pending_burst interval rest2 t0 (t0 + interval)
          fun v hv => (hall v (List.mem_cons_of_mem u hv)).2]

/-- Witness for C9: ten refresh events inside 100 ms against the 333 ms
network dialog interval give exactly one immediate delivery at 0 and one
trailing delivery at 333 — two deliveries, not ten — and they are spaced
by at least one interval. -/
theorem rate_limited_coalescing_witness :
    chron [0, 10, 20, 30, 40, 50, 60, 70, 80, 90] = true
      ∧ spaced networkDialogRefreshInterval
          (rlProcess networkDialogRefreshInterval idleRL
            [0, 10, 20, 30, 40, 50, 60, 70, 80, 90]) = true
      ∧ ([10, 20, 30, 40, 50, 60, 70, 80, 90] : List Nat) ≠ []
      ∧ rlProcess networkDialogRefreshInterval idleRL
          [0, 10, 20, 30, 40, 50, 60, 70, 80, 90] = [0, 333] := by
  have h := rate_limited_coalescing networkDialogRefreshInterval
    [0, 10, 20, 30, 40, 50, 60, 70, 80, 90] 0
    [10, 20, 30, 40, 50, 60, 70, 80, 90]
  refine ⟨by decide, h.1 (by decide), by decide, ?_⟩
  have h2 := h.2 (by decide) (by decide)
  simpa [networkDialogRefreshInterval] using h2

